import Mathlib

/-
Verification of the spreadsheet-comparison core of the SpreadsheetPlagiarism
repository (comparer.py, multifile_comparer.py).

The workbook accessor (openpyxl) is an external collaborator: a workbook is
modelled as an ordered list of named sheets, each sheet a row-major grid of
optional cell values, plus created/modified metadata.  All comparison logic
below is translated directly from the Python source:

  - comparer.cmpr_exact_values  -> exact_stats, cmpr_exact_values_run
  - comparer.cmpr_meta          -> cmpr_meta_run
  - comparer.compare            -> comparer_compare
  - multifile_comparer.__init__ -> pair_indices, multifile_comparers
  - multifile_comparer.compare  -> multifile_compare
  - multifile_comparer.print_table (column selection) -> table_colkeys

Machine reals (numpy float64) are modelled as exact rationals; np.around
with its round-half-to-even tie rule is modelled on rationals.
-/

namespace SpreadsheetPlagiarism

attribute [local semireducible] Rat.mul Rat.inv Rat.add Rat.sub Rat.ofScientific

/-- Python `str.split(',')`, written on the character list: split at every
comma, keeping empty fields. -/
def splitCommaAux : List Char → List Char → List String
  | [], acc => [String.mk acc.reverse]
  | c :: t, acc =>
    if c = ',' then String.mk acc.reverse :: splitCommaAux t []
    else splitCommaAux t (c :: acc)

/-- Python `s.split(',')`. -/
def splitComma (s : String) : List String := splitCommaAux s.data []

/-- Python string `<=`: lexicographic comparison by code point, a prefix
comparing below every extension. -/
def charListLe : List Char → List Char → Bool
  | [], _ => true
  | _ :: _, [] => false
  | a :: s, b :: t => if a = b then charListLe s t else decide (a < b)

/-- Python `a <= b` on strings. -/
def strLe (a b : String) : Bool := charListLe a.data b.data

/-- Insert an element in front of the first list element it is `le`-below
or equal to: the auxiliary step of the stable ascending sort `pySort`. -/
def insertLe (le : α → α → Bool) (a : α) : List α → List α
  | [] => [a]
  | b :: t => if le a b then a :: b :: t else b :: insertLe le a t

/-- Stable ascending sort with respect to a boolean comparison, as
Python's `list.sort` (insertion sort: same ordering, same stability). -/
def pySort (le : α → α → Bool) : List α → List α
  | [] => []
  | a :: t => insertLe le a (pySort le t)

/-- A cell value as exposed by the workbook accessor: Python None (empty
cell), a number, a string, or a boolean. -/
inductive CellValue
  | none
  | num (n : Int)
  | str (s : String)
  | bool (b : Bool)
deriving DecidableEq, Repr

/-- Python `==` on cell values, as applied elementwise by `np.equal`:
None equals only None, numbers compare by value, and Python booleans
compare equal to the numbers 0 and 1 (True == 1, False == 0). -/
def pyEq : CellValue → CellValue → Bool
  | .none, .none => true
  | .num a, .num b => a == b
  | .num a, .bool b => a == (if b then (1 : Int) else 0)
  | .bool a, .num b => (if a then (1 : Int) else 0) == b
  | .bool a, .bool b => a == b
  | .str a, .str b => a == b
  | _, _ => false

/-- A sheet: row-major grid of cell values (rows may be ragged). -/
abbrev Sheet := List (List CellValue)

/-- A loaded workbook: ordered named sheets plus document metadata
(`properties.created` and `properties.modified`, modelled as integer
timestamps). -/
structure Workbook where
  sheets : List (String × Sheet)
  created : Int
  modified : Int
deriving DecidableEq

/-- `book.sheetnames` of openpyxl: the sheet names in workbook order. -/
def Workbook.sheetnames (b : Workbook) : List String :=
  b.sheets.map Prod.fst

/-- `book[name]`: the first sheet with the given name (openpyxl sheet
names are unique; the lookups below only ever use names drawn from the
workbook itself). -/
def Workbook.getSheet (b : Workbook) (nm : String) : Sheet :=
  ((b.sheets.find? (fun p => p.1 == nm)).map Prod.snd).getD []

/-- `[cell.value for row in sht.rows for cell in row]`: the row-major
flattening of a named sheet's cells. -/
def cellList (b : Workbook) (nm : String) : List CellValue :=
  (b.getSheet nm).flatten

/-- `np.sum(np.array(cells) != None)`: the number of non-empty cells. -/
def countExcess (cells : List CellValue) : Nat :=
  cells.countP (fun c => c != CellValue.none)

/-- The three counters accumulated by `cmpr_exact_values`. -/
structure ExactStats where
  nsame : Nat
  ntotal : Nat
  nexcess : Nat
deriving DecidableEq, Repr

/-- `len(cmpr)` for `cmpr = np.equal(sheet1_cells[:size], sheet2_cells[:size])`
with `size = min(len(sheet1_cells), len(sheet2_cells))`. -/
def sharedCount (cc : List CellValue × List CellValue) : Nat :=
  min cc.1.length cc.2.length

/-- `np.sum(cmpr)`: how many positions of the shared range hold equal
values (Python `==`, so a pair of empty cells counts as equal). -/
def sameCount (cc : List CellValue × List CellValue) : Nat :=
  ((cc.1.take (sharedCount cc)).zip (cc.2.take (sharedCount cc))).countP
    (fun p => pyEq p.1 p.2)

/-- The per-sheet-pair excess contribution: non-empty cells of the longer
flattened cell list beyond the shared range. -/
def excessCount (cc : List CellValue × List CellValue) : Nat :=
  if cc.2.length < cc.1.length then countExcess (cc.1.drop (sharedCount cc))
  else countExcess (cc.2.drop (sharedCount cc))

/-- One iteration of the sheet loop of `cmpr_exact_values`: the three
`+=` updates performed for a pair of flattened cell lists. -/
def exact_step_cells (st : ExactStats) (cc : List CellValue × List CellValue) :
    ExactStats :=
  ⟨st.nsame + sameCount cc, st.ntotal + sharedCount cc,
   st.nexcess + excessCount cc⟩

/-- The counter computation of `comparer.cmpr_exact_values`: iterate over
`zip(sheet_names1, sheet_names2)`, update the counters per sheet pair, then
add the non-empty cells of any excess sheets to `nexcess`. -/
def exact_stats (b1 b2 : Workbook) : ExactStats :=
  let names1 := b1.sheetnames
  let names2 := b2.sheetnames
  let st := (names1.zip names2).foldl
    (fun st nm => exact_step_cells st (cellList b1 nm.1, cellList b2 nm.2))
    ⟨0, 0, 0⟩
  if names2.length < names1.length then
    { st with nexcess := st.nexcess +
        ((names1.drop names2.length).map (fun n => countExcess (cellList b1 n))).sum }
  else if names1.length < names2.length then
    { st with nexcess := st.nexcess +
        ((names2.drop names1.length).map (fun n => countExcess (cellList b2 n))).sum }
  else st

/-- Round half to even at the integer, as `np.around` does. -/
def rhalfEven (q : Rat) : Int :=
  let f := q.floor
  let r := q - f
  if r < 1/2 then f
  else if 1/2 < r then f + 1
  else if f % 2 == 0 then f else f + 1

/-- `np.around(x, 4)` on exact rationals. -/
def around4 (q : Rat) : Rat :=
  (rhalfEven (q * 10000) : Rat) / 10000

/-- A value stored in the results dictionary: boolean, counter, or
similarity ratio. -/
inductive RVal
  | b (x : Bool)
  | n (x : Nat)
  | q (x : Rat)
deriving DecidableEq, Repr

/-- The `comparer` object: the two file names, the two loaded workbooks,
and the `results` dictionary (an insertion-ordered key/value list, as a
Python dict). -/
structure Comparer where
  file1 : String
  file2 : String
  book1 : Workbook
  book2 : Workbook
  results : List (String × RVal)
deriving DecidableEq

/-- `comparer.__init__`: results start empty. -/
def comparer_mk (f1 f2 : String) (b1 b2 : Workbook) : Comparer :=
  ⟨f1, f2, b1, b2, []⟩

/-- `self.results[k] = v` on a Python dict: overwrite in place if the key
exists, otherwise append (dicts preserve insertion order). -/
def setResult (rs : List (String × RVal)) (k : String) (v : RVal) :
    List (String × RVal) :=
  if rs.any (fun p => p.1 == k) then
    rs.map (fun p => if p.1 == k then (k, v) else p)
  else rs ++ [(k, v)]

/-- `c.results[k]` as an optional lookup. -/
def getRes (c : Comparer) (k : String) : Option RVal :=
  (c.results.find? (fun p => p.1 == k)).map Prod.snd

/-- `comparer.cmpr_meta`: compare the created and modified timestamps for
exact equality and store the two booleans. -/
def cmpr_meta_run (c : Comparer) : Comparer :=
  let mod := c.book1.modified == c.book2.modified
  let create := c.book1.created == c.book2.created
  let rs := setResult (setResult c.results "same_modify_time" (.b mod))
    "same_create_time" (.b create)
  { c with results := rs }

/-- `comparer.cmpr_exact_values`: compute the counters, store `nsame`,
`ntotal` and `nexcess`, then store `cell_similarity = np.around(nsame/ntotal, 4)`.
The division raises `ZeroDivisionError` when `ntotal = 0`; the error value
carries the comparer state at the moment the exception is raised (the three
counters are already stored). -/
def cmpr_exact_values_run (c : Comparer) : Except (String × Comparer) Comparer :=
  let st := exact_stats c.book1 c.book2
  let rs := setResult (setResult (setResult c.results "nsame" (.n st.nsame))
    "ntotal" (.n st.ntotal)) "nexcess" (.n st.nexcess)
  if st.ntotal = 0 then .error ("ZeroDivisionError", { c with results := rs })
  else
    let rs2 := setResult rs "cell_similarity"
      (.q (around4 ((st.nsame : Rat) / (st.ntotal : Rat))))
    .ok { c with results := rs2 }

/-- `comparer.compare`: split the options string on commas, run
`cmpr_meta` if `'meta'` is among the tokens, then `cmpr_exact_values`
if `'exact'` is. -/
def comparer_compare (c : Comparer) (options : String) :
    Except (String × Comparer) Comparer :=
  let opts := splitComma options
  let c1 := if "meta" ∈ opts then cmpr_meta_run c else c
  if "exact" ∈ opts then cmpr_exact_values_run c1 else .ok c1

/-- The index pairs enumerated by
`[(i, j) for i in range(nfiles-1) for j in range(i+1, nfiles)]`. -/
def pair_indices (n : Nat) : List (Nat × Nat) :=
  (List.range (n - 1)).flatMap
    (fun i => (List.range' (i + 1) (n - (i + 1))).map (fun j => (i, j)))

/-- `multifile_comparer.__init__`: one comparer per index pair, loading the
two files (loading is the external collaborator `load`). -/
def multifile_comparers (load : String → Workbook) (filelist : List String) :
    List Comparer :=
  (pair_indices filelist.length).map (fun ij =>
    comparer_mk (filelist.getD ij.1 "") (filelist.getD ij.2 "")
      (load (filelist.getD ij.1 "")) (load (filelist.getD ij.2 "")))

/-- `multifile_comparer.compare`: run `comparer.compare` on every pair in
order; an exception in one pair propagates. -/
def multifile_compare (options : String) :
    List Comparer → Except (String × Comparer) (List Comparer)
  | [] => .ok []
  | c :: rest =>
    match comparer_compare c options with
    | .error e => .error e
    | .ok c2 =>
      match multifile_compare options rest with
      | .error e => .error e
      | .ok rest2 => .ok (c2 :: rest2)

/-- The union of result keys over all comparers, in first-insertion order,
as collected by the `keys_columns` dict of `print_table`. -/
def allKeys (cs : List Comparer) : List String :=
  cs.foldl (fun acc c =>
    c.results.foldl (fun acc2 kv => if kv.1 ∈ acc2 then acc2 else acc2 ++ [kv.1])
      acc) []

/-- Python `pat in hay` on strings: substring containment. -/
def containsSub : List Char → List Char → Bool
  | [], pat => pat.isEmpty
  | c :: t, pat => pat.isPrefixOf (c :: t) || containsSub t pat

/-- Python `pat in s` for strings. -/
def strContains (s pat : String) : Bool :=
  containsSub s.data pat.data

/-- The metric columns of `multifile_comparer.print_table`: all result keys
sorted (`colkeys.sort()`), skipping every key `k` with `'ntotal' in k or
'nsame' in k`. -/
def table_colkeys (cs : List Comparer) : List String :=
  ((pySort strLe (allKeys cs)).filter
    (fun k => !(strContains k "ntotal" || strContains k "nsame")))

/-! Accessors for the outcome of a metric run: the comparer state reached
(on an exception, the state at the moment it was raised), the exception
message if any, the result keys in insertion order, and a result lookup. -/

/-- The comparer state reached by a run, successful or not. -/
def run_state : Except (String × Comparer) Comparer → Comparer
  | .ok c => c
  | .error (_, c) => c

/-- The exception message of a run, if it raised. -/
def run_err : Except (String × Comparer) Comparer → Option String
  | .ok _ => Option.none
  | .error (e, _) => some e

/-- The result keys, in insertion order, of the state reached by a run. -/
def run_keys (r : Except (String × Comparer) Comparer) : List String :=
  (run_state r).results.map Prod.fst

/-- Result lookup on the state reached by a run. -/
def run_getRes (r : Except (String × Comparer) Comparer) (k : String) :
    Option RVal :=
  getRes (run_state r) k

/-! Definitions written from the claims' own words (not from the source),
used to compare claimed behavior against the behavior of the code. -/

/-- The exact-value sheet pairing as claim C3 states it: evaluate the
metric for every (sheet-in-book1 × sheet-in-book2) combination, attach to
each combination its similarity fraction, sort the combinations ascending
by similarity, and report the statistics of the first (index 0) entry
after that sort. -/
def exact_claimed_comb (b1 b2 : Workbook) : Option ExactStats :=
  let combos := b1.sheets.flatMap (fun s1 =>
    b2.sheets.map (fun s2 =>
      exact_step_cells ⟨0, 0, 0⟩ (s1.2.flatten, s2.2.flatten)))
  let rated := combos.map (fun st => (((st.nsame : Rat) / (st.ntotal : Rat)), st))
  ((pySort (fun a b => decide (a.1 ≤ b.1)) rated).head?).map Prod.snd

/-- The column policy as claim C8 states it: one column per result key
present across all pairs, sorted alphabetically, excluding the keys
matching the prefix patterns `ntotal*` and `nsame*`. -/
def table_colkeys_claimed (cs : List Comparer) : List String :=
  ((pySort strLe (allKeys cs)).filter
    (fun k => !("ntotal".data.isPrefixOf k.data || "nsame".data.isPrefixOf k.data)))

/-! Concrete workbooks and comparers used as witnesses and counterexamples. -/

/-- A workbook with no sheets at all (so no comparable cells). -/
def emptyBook : Workbook := ⟨[], 5, 7⟩

/-- A one-sheet, one-cell workbook. -/
def oneBook : Workbook := ⟨[("Sheet1", [[.num 1]])], 3, 4⟩

/-- Workbook 1 of the spec's exact-value example: sheet `[[1,2],[3,4]]`. -/
def b5a : Workbook := ⟨[("Sheet1", [[.num 1, .num 2], [.num 3, .num 4]])], 0, 0⟩

/-- Workbook 2 of the spec's exact-value example: sheet `[[1,2],[3,5]]`. -/
def b5b : Workbook := ⟨[("Sheet1", [[.num 1, .num 2], [.num 3, .num 5]])], 0, 0⟩

/-- Two-sheet workbook A=[[1]], B=[[2]]. -/
def cb1 : Workbook := ⟨[("A", [[.num 1]]), ("B", [[.num 2]])], 0, 0⟩

/-- Two-sheet workbook A=[[2]], B=[[1]]: each sheet matches the
other-ordinal sheet of `cb1` exactly and its same-ordinal sheet not at all. -/
def cb2 : Workbook := ⟨[("A", [[.num 2]]), ("B", [[.num 1]])], 0, 0⟩

/-- A workbook whose single sheet holds one empty cell. -/
def noneBook : Workbook := ⟨[("s", [[CellValue.none]])], 0, 0⟩

/-- A comparer whose results hold a key containing `ntotal` in the middle. -/
def c8comp : Comparer := ⟨"a", "b", emptyBook, emptyBook, [("x_ntotal", RVal.n 1)]⟩

/-- A fresh comparer over two concrete workbooks. -/
def c9comp : Comparer := comparer_mk "a.xlsx" "b.xlsx" oneBook emptyBook

/-- Claim C5: the exact-value metric on single-sheet workbooks holding
`[[1,2],[3,4]]` and `[[1,2],[3,5]]` yields nsame = 3, ntotal = 4, and
similarity 3/4 = 0.75 stored under `cell_similarity`. -/
theorem claim5_thm :
    exact_stats b5a b5b = ⟨3, 4, 0⟩ ∧
    run_getRes (cmpr_exact_values_run (comparer_mk "f1" "f2" b5a b5b))
      "cell_similarity" = some (RVal.q ((3 : Rat) / 4)) := by
  decide

/-- Claim C1, counterexample: with both workbooks empty (denominator
ntotal = 0), `cmpr_exact_values` raises ZeroDivisionError and stores no
similarity value at all — it does not complete with a not-a-number
sentinel as the claim states. -/
theorem claim1_counterexample :
    run_err (cmpr_exact_values_run (comparer_mk "file1.xlsx" "file2.xlsx"
      emptyBook emptyBook)) = some "ZeroDivisionError" ∧
    "cell_similarity" ∉ run_keys (cmpr_exact_values_run
      (comparer_mk "file1.xlsx" "file2.xlsx" emptyBook emptyBook)) := by
  decide

/-- Claim C2, counterexample: a full comparison (`options = "meta,exact"`)
of two concrete one-cell workbooks completes and produces exactly the keys
`same_modify_time`, `same_create_time`, `nsame`, `ntotal`, `nexcess`,
`cell_similarity` — not the key set the claim enumerates (`sim_exact`,
`nsame_xct`, ... are absent). -/
theorem claim2_counterexample :
    run_err (comparer_compare (comparer_mk "a.xlsx" "b.xlsx" oneBook oneBook)
      "meta,exact") = Option.none ∧
    run_keys (comparer_compare (comparer_mk "a.xlsx" "b.xlsx" oneBook oneBook)
      "meta,exact") = ["same_modify_time", "same_create_time", "nsame",
        "ntotal", "nexcess", "cell_similarity"] ∧
    "sim_exact" ∉ run_keys (comparer_compare
      (comparer_mk "a.xlsx" "b.xlsx" oneBook oneBook) "meta,exact") ∧
    "nsame_xct" ∉ run_keys (comparer_compare
      (comparer_mk "a.xlsx" "b.xlsx" oneBook oneBook) "meta,exact") := by
  decide

/-- Claim C3, counterexample: on the workbook pair `cb1`/`cb2` the code
reports ntotal = 2 (sheets paired at the same ordinal position), while the
claimed procedure — evaluate every sheet combination, sort ascending by
similarity, take the first — would report ntotal = 1; so the metric does
not report the statistics of the first combination after that sort. -/
theorem claim3_counterexample :
    (exact_stats cb1 cb2).ntotal = 2 ∧
    (exact_claimed_comb cb1 cb2).map ExactStats.ntotal = some 1 := by
  decide

/-- Claim C4, counterexample: both workbooks hold a single sheet whose only
cell is empty, yet the code counts the position (ntotal = 1) and counts it
as a match (nsame = 1, since Python `None == None`); empty cells are not
pre-filtered, contradicting the claim that only pairs of non-empty cells
are compared and counted. -/
theorem claim4_counterexample :
    cellList noneBook "s" = [CellValue.none] ∧
    exact_stats noneBook noneBook = ⟨1, 1, 0⟩ := by
  decide

/-- Claim C7, counterexample: comparing the empty workbook against an
identical copy of itself (same sheets, same metadata) does not produce
similarity 1.0 — the exact-value metric raises ZeroDivisionError and no
`cell_similarity` value exists. -/
theorem claim7_counterexample :
    run_err (comparer_compare (comparer_mk "e1.xlsx" "e2.xlsx" emptyBook
      emptyBook) "meta,exact") = some "ZeroDivisionError" ∧
    run_getRes (comparer_compare (comparer_mk "e1.xlsx" "e2.xlsx" emptyBook
      emptyBook) "meta,exact") "cell_similarity" = Option.none := by
  decide

/-- Claim C8, counterexample: a result key `x_ntotal` (which does not match
the prefix pattern `ntotal*`) is present in the underlying results, so the
claim requires a column for it, but `print_table` skips it because its
test is substring containment (`'ntotal' in k`), not prefix matching: the
rendered column list is empty. -/
theorem claim8_counterexample :
    ("x_ntotal" ∈ allKeys [c8comp] ∧
      table_colkeys_claimed [c8comp] = ["x_ntotal"]) ∧
    table_colkeys [c8comp] = [] := by
  decide

/-- Claim C1, amended: whenever the similarity denominator is zero
(ntotal = 0), `cmpr_exact_values` raises ZeroDivisionError instead of
completing; no not-a-number sentinel is stored. -/
theorem claim1_thm (c : Comparer)
    (h : (exact_stats c.book1 c.book2).ntotal = 0) :
    run_err (cmpr_exact_values_run c) = some "ZeroDivisionError" := by
  simp only [cmpr_exact_values_run]
  rw [if_pos h]
  rfl

/-- Witness for `claim1_thm` at two concrete empty workbooks. -/
theorem claim1_witness :
    (exact_stats (comparer_mk "w1" "w2" emptyBook emptyBook).book1
        (comparer_mk "w1" "w2" emptyBook emptyBook).book2).ntotal = 0 ∧
    run_err (cmpr_exact_values_run (comparer_mk "w1" "w2" emptyBook emptyBook)) =
      some "ZeroDivisionError" :=
  ⟨by decide, claim1_thm (comparer_mk "w1" "w2" emptyBook emptyBook) (by decide)⟩

/-- Claim C9: when the comma-split option token list contains neither
"meta" nor "exact", `comparer.compare` returns its comparer unchanged, and
`multifile_comparer.compare` leaves every pair comparer unchanged:
unrecognized option tokens are silently ignored and no metric runs. -/
theorem claim9_thm (options : String)
    (h1 : "meta" ∉ splitComma options) (h2 : "exact" ∉ splitComma options) :
    (∀ c, comparer_compare c options = .ok c) ∧
    (∀ cs, multifile_compare options cs = .ok cs) := by
  have hc : ∀ c, comparer_compare c options = .ok c := by
    intro c
    simp only [comparer_compare]
    rw [if_neg h2, if_neg h1]
  refine ⟨hc, ?_⟩
  intro cs
  induction cs with
  | nil => rfl
  | cons c rest ih => simp only [multifile_compare, hc c, ih]

/-- Witness for `claim9_thm` at the option string "string". -/
theorem claim9_witness :
    ("meta" ∉ splitComma "string" ∧ "exact" ∉ splitComma "string") ∧
    comparer_compare c9comp "string" = .ok c9comp ∧
    multifile_compare "string" [c9comp] = .ok [c9comp] :=
  ⟨⟨by decide, by decide⟩,
   (claim9_thm "string" (by decide) (by decide)).1 c9comp,
   (claim9_thm "string" (by decide) (by decide)).2 [c9comp]⟩

/-- With fewer than two files there is no index pair `i < j`. -/
theorem pair_indices_of_lt_two (n : Nat) (h : n < 2) : pair_indices n = [] := by
  unfold pair_indices
  have h0 : n - 1 = 0 := by omega
  rw [h0]
  rfl

/-- Claim C10: for a file list with fewer than two entries the orchestrator
builds an empty comparer list, and its compare operation performs no
comparison and returns the empty list unchanged. -/
theorem claim10_thm (load : String → Workbook) (filelist : List String)
    (h : filelist.length < 2) :
    multifile_comparers load filelist = [] ∧
    ∀ options, multifile_compare options (multifile_comparers load filelist) = .ok [] := by
  have he : multifile_comparers load filelist = [] := by
    unfold multifile_comparers
    rw [pair_indices_of_lt_two _ h]
    rfl
  exact ⟨he, fun options => by rw [he]; rfl⟩

/-- Witness for `claim10_thm` at a one-file list. -/
theorem claim10_witness :
    ((["a.xlsx"] : List String).length < 2) ∧
    multifile_comparers (fun _ => emptyBook) ["a.xlsx"] = [] ∧
    multifile_compare "meta,exact"
      (multifile_comparers (fun _ => emptyBook) ["a.xlsx"]) = .ok [] :=
  ⟨by decide,
   (claim10_thm (fun _ => emptyBook) ["a.xlsx"] (by decide)).1,
   (claim10_thm (fun _ => emptyBook) ["a.xlsx"] (by decide)).2 "meta,exact"⟩

/-- A successful exact-value run stores nsame, ntotal, nexcess and then the
rounded similarity. -/
theorem cmpr_exact_values_run_ok (c : Comparer)
    (h : (exact_stats c.book1 c.book2).ntotal ≠ 0) :
    cmpr_exact_values_run c = .ok { c with results := (setResult (setResult
      (setResult (setResult c.results
            "nsame" (.n (exact_stats c.book1 c.book2).nsame))
          "ntotal" (.n (exact_stats c.book1 c.book2).ntotal))
        "nexcess" (.n (exact_stats c.book1 c.book2).nexcess))
        "cell_similarity" (.q (around4 (((exact_stats c.book1 c.book2).nsame : Rat) /
          ((exact_stats c.book1 c.book2).ntotal : Rat))))) } := by
  simp only [cmpr_exact_values_run]
  rw [if_neg h]

/-- A full comparison (`options = "meta,exact"`) of a fresh comparer that
does not divide by zero: the exact contents of the results dictionary, in
insertion order. -/
theorem compare_meta_exact_ok (f1 f2 : String) (b1 b2 : Workbook)
    (h : (exact_stats b1 b2).ntotal ≠ 0) :
    comparer_compare (comparer_mk f1 f2 b1 b2) "meta,exact" = .ok
      { file1 := f1, file2 := f2, book1 := b1, book2 := b2,
        results := [
          ("same_modify_time", RVal.b (b1.modified == b2.modified)),
          ("same_create_time", RVal.b (b1.created == b2.created)),
          ("nsame", RVal.n (exact_stats b1 b2).nsame),
          ("ntotal", RVal.n (exact_stats b1 b2).ntotal),
          ("nexcess", RVal.n (exact_stats b1 b2).nexcess),
          ("cell_similarity", RVal.q (around4 (((exact_stats b1 b2).nsame : Rat) /
            ((exact_stats b1 b2).ntotal : Rat))))] } := by
  have step : comparer_compare (comparer_mk f1 f2 b1 b2) "meta,exact" =
      cmpr_exact_values_run ⟨f1, f2, b1, b2,
        [("same_modify_time", RVal.b (b1.modified == b2.modified)),
         ("same_create_time", RVal.b (b1.created == b2.created))]⟩ := rfl
  rw [step, cmpr_exact_values_run_ok _ h]
  rfl

/-- Claim C2, amended: a full comparison of a pair of workbooks with at
least one comparable cell position (ntotal nonzero, so the similarity
division succeeds) completes and produces exactly the result keys
`same_modify_time`, `same_create_time` (booleans) and `nsame`, `ntotal`,
`nexcess`, `cell_similarity` (numeric), the similarity being rounded to
4 decimal places. -/
theorem claim2_thm (f1 f2 : String) (b1 b2 : Workbook)
    (h : (exact_stats b1 b2).ntotal ≠ 0) :
    run_err (comparer_compare (comparer_mk f1 f2 b1 b2) "meta,exact") = Option.none ∧
    run_keys (comparer_compare (comparer_mk f1 f2 b1 b2) "meta,exact") =
      ["same_modify_time", "same_create_time", "nsame", "ntotal", "nexcess",
        "cell_similarity"] ∧
    run_getRes (comparer_compare (comparer_mk f1 f2 b1 b2) "meta,exact")
      "cell_similarity" = some (RVal.q (around4
        (((exact_stats b1 b2).nsame : Rat) / ((exact_stats b1 b2).ntotal : Rat)))) := by
  rw [compare_meta_exact_ok f1 f2 b1 b2 h]
  exact ⟨rfl, rfl, rfl⟩

/-- Witness for `claim2_thm` at two concrete one-cell workbooks. -/
theorem claim2_witness :
    (exact_stats oneBook oneBook).ntotal ≠ 0 ∧
    run_keys (comparer_compare (comparer_mk "w1" "w2" oneBook oneBook) "meta,exact") =
      ["same_modify_time", "same_create_time", "nsame", "ntotal", "nexcess",
        "cell_similarity"] :=
  ⟨by decide, (claim2_thm "w1" "w2" oneBook oneBook (by decide)).2.1⟩

/-- The counter loop of `cmpr_exact_values`, unfolded into three
independent per-sheet-pair sums. -/
theorem exact_loop_spec (b1 b2 : Workbook) (l : List (String × String))
    (st : ExactStats) :
    l.foldl (fun st nm => exact_step_cells st (cellList b1 nm.1, cellList b2 nm.2)) st =
      ⟨st.nsame + (l.map (fun nm => sameCount (cellList b1 nm.1, cellList b2 nm.2))).sum,
       st.ntotal + (l.map (fun nm => sharedCount (cellList b1 nm.1, cellList b2 nm.2))).sum,
       st.nexcess + (l.map (fun nm => excessCount (cellList b1 nm.1, cellList b2 nm.2))).sum⟩ := by
  induction l generalizing st with
  | nil => simp
  | cons a t ih =>
    rw [List.foldl_cons, ih]
    simp only [exact_step_cells, List.map_cons, List.sum_cons, ExactStats.mk.injEq]
    refine ⟨?_, ?_, ?_⟩ <;> omega

/-- The nsame and ntotal counters of `exact_stats` come entirely from the
zipped sheet loop (the excess-sheet pass touches only nexcess). -/
theorem exact_stats_nsame_ntotal (b1 b2 : Workbook) :
    (exact_stats b1 b2).nsame = ((b1.sheetnames.zip b2.sheetnames).map
      (fun nm => sameCount (cellList b1 nm.1, cellList b2 nm.2))).sum ∧
    (exact_stats b1 b2).ntotal = ((b1.sheetnames.zip b2.sheetnames).map
      (fun nm => sharedCount (cellList b1 nm.1, cellList b2 nm.2))).sum := by
  simp only [exact_stats]
  rw [exact_loop_spec]
  split
  · exact ⟨by simp, by simp⟩
  · split
    · exact ⟨by simp, by simp⟩
    · exact ⟨by simp, by simp⟩

/-- The per-sheet-pair match count, rewritten position by position: for
every index of the shared range, compare the cells there with Python
equality (empty cells included). -/
theorem sameCount_eq_range : ∀ (c1 c2 : List CellValue),
    sameCount (c1, c2) = (List.range (min c1.length c2.length)).countP
      (fun i => pyEq (c1.getD i CellValue.none) (c2.getD i CellValue.none))
  | [], c2 => by simp [sameCount, sharedCount]
  | a :: t1, [] => by simp [sameCount, sharedCount]
  | a :: t1, b :: t2 => by
    have ih := sameCount_eq_range t1 t2
    simp only [sameCount, sharedCount] at ih ⊢
    rw [List.length_cons, List.length_cons, Nat.succ_min_succ,
      List.take_succ_cons, List.take_succ_cons, List.zip_cons_cons,
      List.countP_cons, List.range_succ_eq_map, List.countP_cons,
      List.countP_map, ih]
    simp [Function.comp_def]

/-- Claim C4, amended: the exact-value metric compares every position of
the shared flattened range of each zipped sheet pair, with no pre-filtering
of empty cells: ntotal counts every position of the shared range, and nsame
counts exactly the positions whose two cells are Python-equal (a pair of
empty cells included). -/
theorem claim4_thm (b1 b2 : Workbook) :
    (exact_stats b1 b2).ntotal = ((b1.sheetnames.zip b2.sheetnames).map
      (fun nm => min (cellList b1 nm.1).length (cellList b2 nm.2).length)).sum ∧
    (exact_stats b1 b2).nsame = ((b1.sheetnames.zip b2.sheetnames).map
      (fun nm => (List.range (min (cellList b1 nm.1).length
          (cellList b2 nm.2).length)).countP
        (fun i => pyEq ((cellList b1 nm.1).getD i CellValue.none)
          ((cellList b2 nm.2).getD i CellValue.none)))).sum := by
  obtain ⟨hs, ht⟩ := exact_stats_nsame_ntotal b1 b2
  constructor
  · rw [ht]
    exact congrArg List.sum (List.map_congr_left (fun nm _ => rfl))
  · rw [hs]
    exact congrArg List.sum (List.map_congr_left (fun nm _ => sameCount_eq_range _ _))

/-- Python equality on cell values is reflexive. -/
theorem pyEq_refl (v : CellValue) : pyEq v v = true := by
  cases v <;> simp [pyEq]

/-- Zipping a list with itself pairs every element with itself. -/
theorem zip_self (l : List α) : l.zip l = l.map (fun x => (x, x)) := by
  induction l with
  | nil => rfl
  | cons a t ih => simp [ih]

/-- A cell list compared against itself matches at every position. -/
theorem sameCount_self (c : List CellValue) : sameCount (c, c) = c.length := by
  simp only [sameCount, sharedCount, Nat.min_self, List.take_length]
  rw [zip_self, List.countP_map]
  exact List.countP_eq_length.mpr (fun a _ => pyEq_refl a)

/-- A cell list compared against itself has no excess cells. -/
theorem excessCount_self (c : List CellValue) : excessCount (c, c) = 0 := by
  simp [excessCount, sharedCount, countExcess, lt_self_iff_false, List.drop_length]

/-- Comparing a workbook against itself, every position of every zipped
sheet matches: nsame equals ntotal. -/
theorem exact_stats_self (b : Workbook) :
    (exact_stats b b).nsame = (exact_stats b b).ntotal := by
  obtain ⟨hs, ht⟩ := exact_stats_nsame_ntotal b b
  rw [hs, ht, zip_self, List.map_map, List.map_map]
  refine congrArg List.sum (List.map_congr_left ?_)
  intro n _
  show sameCount (cellList b n, cellList b n) = sharedCount (cellList b n, cellList b n)
  rw [sameCount_self]
  simp [sharedCount]

/-- Rounding the exact ratio 1 to 4 decimal places gives 1. -/
theorem around4_one : around4 1 = 1 := by decide

/-- Claim C7, amended: comparing a workbook against an identical workbook
(same sheets, same cell values, same metadata) with at least one comparable
cell position (ntotal nonzero, so the similarity division succeeds) yields
cell similarity exactly 1.0 and both metadata booleans true. -/
theorem claim7_thm (f1 f2 : String) (b : Workbook)
    (h : (exact_stats b b).ntotal ≠ 0) :
    run_err (comparer_compare (comparer_mk f1 f2 b b) "meta,exact") = Option.none ∧
    run_getRes (comparer_compare (comparer_mk f1 f2 b b) "meta,exact")
      "cell_similarity" = some (RVal.q 1) ∧
    run_getRes (comparer_compare (comparer_mk f1 f2 b b) "meta,exact")
      "same_create_time" = some (RVal.b true) ∧
    run_getRes (comparer_compare (comparer_mk f1 f2 b b) "meta,exact")
      "same_modify_time" = some (RVal.b true) := by
  rw [compare_meta_exact_ok f1 f2 b b h]
  refine ⟨rfl, ?_, ?_, ?_⟩
  · show some (RVal.q (around4 (((exact_stats b b).nsame : Rat) /
      ((exact_stats b b).ntotal : Rat)))) = some (RVal.q 1)
    rw [exact_stats_self b, div_self (by exact_mod_cast h), around4_one]
  · show some (RVal.b (b.created == b.created)) = some (RVal.b true)
    rw [beq_self_eq_true]
  · show some (RVal.b (b.modified == b.modified)) = some (RVal.b true)
    rw [beq_self_eq_true]

/-- Witness for `claim7_thm` at a concrete four-cell workbook. -/
theorem claim7_witness :
    (exact_stats b5a b5a).ntotal ≠ 0 ∧
    run_getRes (comparer_compare (comparer_mk "w1" "w2" b5a b5a) "meta,exact")
      "cell_similarity" = some (RVal.q 1) :=
  ⟨by decide, (claim7_thm "w1" "w2" b5a (by decide)).2.1⟩

/-- The counters of `cmpr_exact_values` written purely positionally: fold
over the sheet lists zipped by ordinal position, ignoring names, with the
same excess-sheet pass on the dropped tail. -/
def exact_stats_ordinal (b1 b2 : Workbook) : ExactStats :=
  let st := (b1.sheets.zip b2.sheets).foldl
    (fun st ss => exact_step_cells st (ss.1.2.flatten, ss.2.2.flatten)) ⟨0, 0, 0⟩
  if b2.sheets.length < b1.sheets.length then
    { st with nexcess := st.nexcess +
        ((b1.sheets.drop b2.sheets.length).map (fun s => countExcess s.2.flatten)).sum }
  else if b1.sheets.length < b2.sheets.length then
    { st with nexcess := st.nexcess +
        ((b2.sheets.drop b1.sheets.length).map (fun s => countExcess s.2.flatten)).sum }
  else st

/-- With distinct names, looking a sheet up by its own name finds it. -/
theorem find?_fst_eq {l : List (String × Sheet)} (hn : (l.map Prod.fst).Nodup)
    {p : String × Sheet} (hp : p ∈ l) : l.find? (fun q => q.1 == p.1) = some p := by
  induction l with
  | nil => cases hp
  | cons a t ih =>
    rw [List.map_cons, List.nodup_cons] at hn
    rcases List.mem_cons.mp hp with h | h
    · subst h
      simp [List.find?_cons]
    · have hne : (a.1 == p.1) = false := by
        refine beq_eq_false_iff_ne.mpr ?_
        intro he
        exact hn.1 (he ▸ List.mem_map_of_mem Prod.fst h)
      rw [List.find?_cons, hne]
      exact ih hn.2 h

/-- With distinct sheet names, `book[name]` of a sheet's own name is that
sheet. -/
theorem getSheet_mem {b : Workbook} (hn : b.sheetnames.Nodup)
    {p : String × Sheet} (hp : p ∈ b.sheets) : b.getSheet p.1 = p.2 := by
  unfold Workbook.getSheet
  rw [find?_fst_eq hn hp]
  rfl

/-- Folds agree when their step functions agree on the list members. -/
theorem foldl_congr_mem {α β : Type _} {l : List α} {f g : β → α → β} (st : β)
    (h : ∀ a ∈ l, ∀ s, f s a = g s a) : l.foldl f st = l.foldl g st := by
  induction l generalizing st with
  | nil => rfl
  | cons a t ih =>
    rw [List.foldl_cons, List.foldl_cons, h a (List.mem_cons_self a t)]
    exact ih _ (fun x hx s => h x (List.mem_cons_of_mem _ hx) s)

/-- With distinct names, the excess-sheet pass over dropped sheet names
equals the pass over the dropped sheets themselves. -/
theorem excess_tail_eq (b : Workbook) (hn : b.sheetnames.Nodup) (n : Nat) :
    ((b.sheetnames.drop n).map (fun nm => countExcess (cellList b nm))).sum =
    ((b.sheets.drop n).map (fun s => countExcess s.2.flatten)).sum := by
  show (((b.sheets.map Prod.fst).drop n).map _).sum = _
  rw [← List.map_drop, List.map_map]
  refine congrArg List.sum (List.map_congr_left ?_)
  intro s hs
  show countExcess (cellList b s.1) = countExcess s.2.flatten
  simp only [cellList]
  rw [getSheet_mem hn (List.drop_subset n b.sheets hs)]

/-- Claim C3, amended: the exact-value metric pairs sheets at the same
ordinal position — it zips the two sheet-name lists, truncating at the
shorter, and (given distinct sheet names, as openpyxl guarantees) this is
exactly the positional pairing of the sheet lists; no per-combination
similarity evaluation, no sort, and no best- or worst-match selection
occurs. -/
theorem claim3_thm (b1 b2 : Workbook)
    (h1 : b1.sheetnames.Nodup) (h2 : b2.sheetnames.Nodup) :
    exact_stats b1 b2 = exact_stats_ordinal b1 b2 := by
  have hloop : (b1.sheetnames.zip b2.sheetnames).foldl
      (fun st nm => exact_step_cells st (cellList b1 nm.1, cellList b2 nm.2))
      ⟨0, 0, 0⟩ =
      (b1.sheets.zip b2.sheets).foldl
        (fun st ss => exact_step_cells st (ss.1.2.flatten, ss.2.2.flatten))
        ⟨0, 0, 0⟩ := by
    show ((b1.sheets.map Prod.fst).zip (b2.sheets.map Prod.fst)).foldl _ _ = _
    rw [List.zip_map, List.foldl_map]
    refine foldl_congr_mem _ ?_
    intro ss hss s
    obtain ⟨hm1, hm2⟩ := List.of_mem_zip hss
    show exact_step_cells s (cellList b1 ss.1.1, cellList b2 ss.2.1) = _
    simp only [cellList]
    rw [getSheet_mem h1 hm1, getSheet_mem h2 hm2]
  simp only [exact_stats, exact_stats_ordinal]
  rw [hloop]
  rw [excess_tail_eq b1 h1 b2.sheetnames.length, excess_tail_eq b2 h2 b1.sheetnames.length]
  simp only [Workbook.sheetnames, List.length_map]

/-- Witness for `claim3_thm` at the concrete pair `cb1`, `cb2`. -/
theorem claim3_witness :
    (cb1.sheetnames.Nodup ∧ cb2.sheetnames.Nodup) ∧
    exact_stats cb1 cb2 = exact_stats_ordinal cb1 cb2 :=
  ⟨⟨by decide, by decide⟩, claim3_thm cb1 cb2 (by decide) (by decide)⟩

/-- Gauss sum, in the form produced by the pair-building comprehension. -/
theorem gauss_sum (m : Nat) :
    (((List.range m).map (fun i => m - i)).sum) * 2 = m * (m + 1) := by
  induction m with
  | zero => rfl
  | succ k ih =>
    rw [List.range_succ_eq_map]
    simp only [List.map_cons, List.map_map, List.sum_cons, Function.comp_def]
    have hm : ((List.range k).map (fun i => k + 1 - (i + 1))).sum =
        ((List.range k).map (fun i => k - i)).sum := by
      refine congrArg List.sum (List.map_congr_left ?_)
      intro i _
      omega
    rw [hm]
    have hx : (k + 1) * (k + 1 + 1) = k * (k + 1) + 2 * (k + 1) := by ring
    rw [hx, ← ih]
    omega

/-- The comprehension builds `n * (n - 1) / 2` index pairs. -/
theorem pair_indices_length (n : Nat) :
    (pair_indices n).length = n * (n - 1) / 2 := by
  unfold pair_indices
  rw [List.flatMap_def, List.length_flatten, List.map_map]
  have h1 : ((List.range (n - 1)).map
      (List.length ∘ (fun i => (List.range' (i + 1) (n - (i + 1))).map (fun j => (i, j))))).sum =
      ((List.range (n - 1)).map (fun i => (n - 1) - i)).sum := by
    refine congrArg List.sum (List.map_congr_left ?_)
    intro i _
    simp only [Function.comp_def, List.length_map, List.length_range']
    omega
  rw [h1]
  have h2 := gauss_sum (n - 1)
  rcases n with _ | k
  · simp
  · simp only [Nat.succ_sub_one] at h2 ⊢
    have hx : (k + 1) * k = k * (k + 1) := Nat.mul_comm _ _
    generalize hp : k * (k + 1) = p at h2 hx
    rw [hx]
    omega

/-- Membership in the built index pairs: exactly the pairs `i < j < n`. -/
theorem mem_pair_indices {n i j : Nat} :
    (i, j) ∈ pair_indices n ↔ i < j ∧ j < n := by
  unfold pair_indices
  simp only [List.mem_flatMap, List.mem_map, List.mem_range, List.mem_range'_1,
    Prod.mk.injEq]
  constructor
  · rintro ⟨a, ha, b, ⟨hb1, hb2⟩, he1, he2⟩
    omega
  · rintro ⟨hij, hjn⟩
    exact ⟨i, by omega, j, ⟨by omega, by omega⟩, rfl, rfl⟩

/-- The built index pairs are pairwise distinct. -/
theorem pair_indices_nodup (n : Nat) : (pair_indices n).Nodup := by
  unfold pair_indices
  rw [List.nodup_flatMap]
  constructor
  · intro i _
    refine List.Nodup.map ?_ (List.nodup_range' _ _)
    intro a b hab
    simpa using congrArg Prod.snd hab
  · refine (List.pairwise_lt_range _).imp ?_
    intro a b hab x hxa hxb
    obtain ⟨ja, _, hea⟩ := List.mem_map.mp hxa
    obtain ⟨jb, _, heb⟩ := List.mem_map.mp hxb
    have : a = b := by
      have h1 := congrArg Prod.fst hea
      have h2 := congrArg Prod.fst heb
      simp at h1 h2
      omega
    omega

/-- Membership in the built index pairs, for a pair variable. -/
theorem mem_pair_indices_fst_snd {n : Nat} {p : Nat × Nat} :
    p ∈ pair_indices n ↔ p.1 < p.2 ∧ p.2 < n := by
  obtain ⟨i, j⟩ := p
  exact mem_pair_indices

/-- `getD` at an index inside the list is the list element. -/
theorem getD_eq_getElem_of_lt (l : List String) (d : String) {i : Nat}
    (h : i < l.length) : l.getD i d = l[i] := by
  rw [List.getD_eq_getElem?_getD, List.getElem?_eq_getElem h]
  rfl

/-- On a list with no duplicates, `getD` at in-range indices is injective. -/
theorem getD_inj {l : List String} (hl : l.Nodup) {i j : Nat}
    (hi : i < l.length) (hj : j < l.length)
    (he : l.getD i "" = l.getD j "") : i = j := by
  rw [getD_eq_getElem_of_lt _ _ hi, getD_eq_getElem_of_lt _ _ hj] at he
  exact hl.getElem_inj_iff.mp he

/-- Claim C6: over a list of n distinct files the orchestrator builds
exactly n(n-1)/2 pair comparers, none comparing a file with itself, and no
unordered pair of files occurring twice. -/
theorem claim6_thm (load : String → Workbook) (filelist : List String)
    (hnd : filelist.Nodup) :
    (multifile_comparers load filelist).length =
      filelist.length * (filelist.length - 1) / 2 ∧
    (∀ c ∈ multifile_comparers load filelist, c.file1 ≠ c.file2) ∧
    (multifile_comparers load filelist).Pairwise (fun c d =>
      ¬((c.file1 = d.file1 ∧ c.file2 = d.file2) ∨
        (c.file1 = d.file2 ∧ c.file2 = d.file1))) := by
  refine ⟨?_, ?_, ?_⟩
  · unfold multifile_comparers
    rw [List.length_map, pair_indices_length]
  · intro c hc
    unfold multifile_comparers at hc
    obtain ⟨⟨i, j⟩, hij, rfl⟩ := List.mem_map.mp hc
    obtain ⟨h1, h2⟩ := mem_pair_indices.mp hij
    show filelist.getD i "" ≠ filelist.getD j ""
    rw [getD_eq_getElem_of_lt _ _ (by omega), getD_eq_getElem_of_lt _ _ h2]
    intro he
    exact absurd (hnd.getElem_inj_iff.mp he) (by omega)
  · unfold multifile_comparers
    rw [List.pairwise_map, List.pairwise_iff_getElem]
    intro a b ha hb hab
    obtain ⟨hp1, hp2⟩ := mem_pair_indices_fst_snd.mp (List.getElem_mem ha)
    obtain ⟨hq1, hq2⟩ := mem_pair_indices_fst_snd.mp (List.getElem_mem hb)
    have hpq : (pair_indices filelist.length)[a] ≠ (pair_indices filelist.length)[b] :=
      fun he => absurd ((pair_indices_nodup _).getElem_inj_iff.mp he) (Nat.ne_of_lt hab)
    rintro (⟨he1, he2⟩ | ⟨he1, he2⟩)
    · exact hpq (Prod.ext (getD_inj hnd (by omega) (by omega) he1)
        (getD_inj hnd hp2 hq2 he2))
    · have e1 := getD_inj hnd (by omega) hq2 he1
      have e2 := getD_inj hnd hp2 (by omega) he2
      omega

/-- Witness for `claim6_thm` at a three-file list: exactly 3 pairs. -/
theorem claim6_witness :
    ((["a.xlsx", "b.xlsx", "c.xlsx"] : List String).Nodup) ∧
    (multifile_comparers (fun _ => emptyBook) ["a.xlsx", "b.xlsx", "c.xlsx"]).length = 3 ∧
    (∀ c ∈ multifile_comparers (fun _ => emptyBook) ["a.xlsx", "b.xlsx", "c.xlsx"],
      c.file1 ≠ c.file2) :=
  ⟨by decide,
   (claim6_thm (fun _ => emptyBook) ["a.xlsx", "b.xlsx", "c.xlsx"] (by decide)).1,
   (claim6_thm (fun _ => emptyBook) ["a.xlsx", "b.xlsx", "c.xlsx"] (by decide)).2.1⟩

/-- Membership through the insertion step of the sort. -/
theorem mem_insertLe (le : α → α → Bool) (a : α) :
    ∀ (l : List α) (x : α), x ∈ insertLe le a l ↔ x = a ∨ x ∈ l
  | [], x => by simp [insertLe]
  | b :: t, x => by
    simp only [insertLe]
    by_cases h : le a b = true
    · rw [if_pos h]
      rw [List.mem_cons]
    · rw [if_neg h]
      rw [List.mem_cons, mem_insertLe le a t x, List.mem_cons]
      tauto

/-- Sorting does not change the members. -/
theorem mem_pySort (le : α → α → Bool) :
    ∀ (l : List α) (x : α), x ∈ pySort le l ↔ x ∈ l
  | [], x => Iff.rfl
  | a :: t, x => by
    simp only [pySort]
    rw [mem_insertLe, mem_pySort le t x, List.mem_cons]

/-- Inserting into a sorted list keeps it sorted, for a total transitive
boolean comparison. -/
theorem pairwise_insertLe (le : α → α → Bool)
    (htot : ∀ a b, le a b = true ∨ le b a = true)
    (htrans : ∀ {a b c}, le a b = true → le b c = true → le a c = true)
    (a : α) (l : List α) (hl : l.Pairwise (fun x y => le x y = true)) :
    (insertLe le a l).Pairwise (fun x y => le x y = true) := by
  induction l with
  | nil => simp [insertLe]
  | cons b t ih =>
    rcases List.pairwise_cons.mp hl with ⟨hbt, htp⟩
    simp only [insertLe]
    by_cases h : le a b = true
    · rw [if_pos h]
      refine List.pairwise_cons.mpr ⟨?_, hl⟩
      intro x hx
      rcases List.mem_cons.mp hx with rfl | hx
      · exact h
      · exact htrans h (hbt x hx)
    · rw [if_neg h]
      have hba : le b a = true := (htot a b).resolve_left h
      refine List.pairwise_cons.mpr ⟨?_, ih htp⟩
      intro x hx
      rcases (mem_insertLe le a t x).mp hx with rfl | hx
      · exact hba
      · exact hbt x hx

/-- Insertion sort sorts, for a total transitive boolean comparison. -/
theorem pairwise_pySort (le : α → α → Bool)
    (htot : ∀ a b, le a b = true ∨ le b a = true)
    (htrans : ∀ {a b c}, le a b = true → le b c = true → le a c = true) :
    ∀ l : List α, (pySort le l).Pairwise (fun x y => le x y = true)
  | [] => List.Pairwise.nil
  | a :: t => pairwise_insertLe le htot htrans a (pySort le t)
      (pairwise_pySort le htot htrans t)

/-- The lexicographic comparison is total. -/
theorem charListLe_total : ∀ a b : List Char,
    charListLe a b = true ∨ charListLe b a = true
  | [], _ => Or.inl rfl
  | _ :: _, [] => Or.inr rfl
  | a :: s, b :: t => by
    by_cases hab : a = b
    · subst hab
      simp only [charListLe, if_pos rfl]
      exact charListLe_total s t
    · simp only [charListLe, if_neg hab, if_neg (Ne.symm hab)]
      rcases lt_trichotomy a b with h | h | h
      · exact Or.inl (decide_eq_true h)
      · exact absurd h hab
      · exact Or.inr (decide_eq_true h)

/-- The lexicographic comparison is transitive. -/
theorem charListLe_trans : ∀ {a b c : List Char},
    charListLe a b = true → charListLe b c = true → charListLe a c = true
  | [], _, _, _, _ => rfl
  | x :: s, [], _, h1, _ => by simp [charListLe] at h1
  | x :: s, y :: t, [], _, h2 => by simp [charListLe] at h2
  | x :: s, y :: t, z :: u, h1, h2 => by
    by_cases hxy : x = y
    · subst hxy
      rw [charListLe, if_pos rfl] at h1
      by_cases hxz : x = z
      · subst hxz
        rw [charListLe, if_pos rfl] at h2 ⊢
        exact charListLe_trans h1 h2
      · rw [charListLe, if_neg hxz] at h2 ⊢
        exact h2
    · rw [charListLe, if_neg hxy] at h1
      have hxy' : x < y := of_decide_eq_true h1
      by_cases hyz : y = z
      · subst hyz
        rw [charListLe, if_neg hxy]
        exact h1
      · rw [charListLe, if_neg hyz] at h2
        have hyz' : y < z := of_decide_eq_true h2
        have hxz' : x < z := lt_trans hxy' hyz'
        rw [charListLe, if_neg (ne_of_lt hxz')]
        exact decide_eq_true hxz'

/-- Python string comparison is total. -/
theorem strLe_total (a b : String) : strLe a b = true ∨ strLe b a = true :=
  charListLe_total a.data b.data

/-- Python string comparison is transitive. -/
theorem strLe_trans {a b c : String} (h1 : strLe a b = true)
    (h2 : strLe b c = true) : strLe a c = true :=
  charListLe_trans h1 h2

/-- A prefix match is in particular a substring match. -/
theorem containsSub_of_isPrefixOf : ∀ (hay pat : List Char),
    pat.isPrefixOf hay = true → containsSub hay pat = true
  | [], pat, h => by
    cases pat with
    | nil => rfl
    | cons p ps => simp [List.isPrefixOf] at h
  | c :: t, pat, h => by simp [containsSub, h]

/-- Claim C8, amended: the rendered table has one column per result key
present across all pairs, sorted (with Python string order), except that
every key containing `ntotal` or `nsame` as a substring is excluded —
substring containment, not just the prefix patterns `ntotal*`/`nsame*`;
in particular no `ntotal*` or `nsame*` column ever appears. -/
theorem claim8_thm (cs : List Comparer) :
    (∀ k, k ∈ table_colkeys cs ↔
      (k ∈ allKeys cs ∧ strContains k "ntotal" = false ∧
        strContains k "nsame" = false)) ∧
    (table_colkeys cs).all
      (fun k => !("ntotal".data.isPrefixOf k.data ||
        "nsame".data.isPrefixOf k.data)) = true ∧
    (table_colkeys cs).Pairwise (fun a b => strLe a b = true) := by
  have hmem : ∀ k, k ∈ table_colkeys cs ↔
      (k ∈ allKeys cs ∧ strContains k "ntotal" = false ∧
        strContains k "nsame" = false) := by
    intro k
    unfold table_colkeys
    rw [List.mem_filter, mem_pySort]
    constructor
    · rintro ⟨hk, hp⟩
      simp only [Bool.not_eq_eq_eq_not, Bool.not_true, Bool.or_eq_false_iff] at hp
      exact ⟨hk, hp.1, hp.2⟩
    · rintro ⟨hk, h1, h2⟩
      refine ⟨hk, ?_⟩
      simp only [Bool.not_eq_eq_eq_not, Bool.not_true, Bool.or_eq_false_iff]
      exact ⟨h1, h2⟩
  refine ⟨hmem, ?_, ?_⟩
  · rw [List.all_eq_true]
    intro k hk
    obtain ⟨-, h1, h2⟩ := (hmem k).mp hk
    have p1 : "ntotal".data.isPrefixOf k.data = false := by
      by_contra hb
      have := containsSub_of_isPrefixOf k.data "ntotal".data
        (by revert hb; cases ("ntotal".data.isPrefixOf k.data) <;> simp)
      rw [show containsSub k.data "ntotal".data = strContains k "ntotal" from rfl, h1] at this
      cases this
    have p2 : "nsame".data.isPrefixOf k.data = false := by
      by_contra hb
      have := containsSub_of_isPrefixOf k.data "nsame".data
        (by revert hb; cases ("nsame".data.isPrefixOf k.data) <;> simp)
      rw [show containsSub k.data "nsame".data = strContains k "nsame" from rfl, h2] at this
      cases this
    rw [p1, p2]
    rfl
  · unfold table_colkeys
    exact List.Pairwise.sublist (List.filter_sublist _)
      (pairwise_pySort strLe strLe_total strLe_trans (allKeys cs))

/-- Witness application of `claim8_thm` at a concrete comparer. -/
theorem claim8_witness :
    ("cell_similarity" ∈ table_colkeys [c8comp] ↔
      ("cell_similarity" ∈ allKeys [c8comp] ∧
        strContains "cell_similarity" "ntotal" = false ∧
        strContains "cell_similarity" "nsame" = false)) ∧
    (table_colkeys [c8comp]).all
      (fun k => !("ntotal".data.isPrefixOf k.data ||
        "nsame".data.isPrefixOf k.data)) = true :=
  ⟨(claim8_thm [c8comp]).1 "cell_similarity", (claim8_thm [c8comp]).2.1⟩

end SpreadsheetPlagiarism
